import Mathlib

/-!
# Verification of iPXE `src/core/time.c`

Shallow embedding of the calendar-conversion core of iPXE's
`src/core/time.c` (encoder `mktime`, decoder `gmtime`, and their shared
helpers `is_leap_year`, `leap_years_to_end`, `day_of_week`), together
with proofs of the specification's testable properties.

Modelling conventions:
* C `int` / `time_t` values are modelled as unbounded `Int` (no claim in
  scope exercises machine-width overflow).
* C truncated division `/` and remainder `%` on signed integers are
  `Int.tdiv` and `Int.tmod`.
* The decoder's two `while` loops are modelled as fuel-indexed
  structurally recursive functions.  The year-search loop consumes at
  least 365 days of the remaining day count per iteration, so a fuel of
  `day.toNat + 1` can never be exhausted before the loop's own exit
  condition fires (proved below); the month loop runs at most 12 times
  by its `month < 12` guard, so its fuel is exactly 12.
-/

namespace IPXETime

/-- The fields of C `struct tm` used by `time.c`. -/
structure Tm where
  tm_sec : Int
  tm_min : Int
  tm_hour : Int
  tm_mday : Int
  tm_mon : Int
  tm_year : Int
  tm_wday : Int
  tm_yday : Int
deriving DecidableEq, Repr

/-- `is_leap_year` from `time.c`: `tm_year` is years since 1900.
The C body initialises `leap_year = 0` and then runs three successive
`if` assignments, modelled here by shadowing `let`s. -/
def is_leap_year (tm_year : Int) : Int :=
  let leap_year : Int := 0
  let leap_year := if tm_year.tmod 4 = 0 then 1 else leap_year
  let leap_year := if tm_year.tmod 100 = 0 then 0 else leap_year
  let leap_year := if tm_year.tmod 400 = 100 then 1 else leap_year
  leap_year

/-- `leap_years_to_end` from `time.c`: number of leap years since 1900
up to the end of year `1900 + tm_year`. -/
def leap_years_to_end (tm_year : Int) : Int :=
  tm_year.tdiv 4 - tm_year.tdiv 100 + (tm_year + 300).tdiv 400

/-- The per-month adjustment table `offset[12]` of `day_of_week`. -/
def wd_offset : List Int := [1, 4, 3, 6, 1, 4, 6, 2, 5, 0, 3, 5]

/-- `day_of_week` from `time.c`: Gregorian congruence formula, with
January and February counted in the previous pseudo-year.  C array
indexing `offset[tm_mon]` is defined only for `tm_mon ∈ [0,11]`; the
embedding totalises it with `List.getD`. -/
def day_of_week (tm_year tm_mon tm_mday : Int) : Int :=
  let pseudo_year := if tm_mon < 2 then tm_year - 1 else tm_year
  (pseudo_year + leap_years_to_end pseudo_year +
    wd_offset.getD tm_mon.toNat 0 + tm_mday).tmod 7

/-- `days_to_month_start` from `time.c`: days from the start of the year
until the start of each month, in non-leap years. -/
def days_to_month_start : List Int :=
  [0, 31, 59, 90, 120, 151, 181, 212, 243, 273, 304, 334]

/-- `mktime` from `time.c`.  The C function mutates `tm->tm_yday` and
`tm->tm_wday` through the pointer and returns the seconds count; the
embedding returns the updated structure together with the result. -/
def mktime (tm : Tm) : Tm × Int :=
  let tm_yday0 := (tm.tm_mday - 1) + days_to_month_start.getD tm.tm_mon.toNat 0
  let tm_yday :=
    if 2 ≤ tm.tm_mon ∧ is_leap_year tm.tm_year ≠ 0 then tm_yday0 + 1
    else tm_yday0
  let tm_wday := day_of_week tm.tm_year tm.tm_mon tm.tm_mday
  let days_since_epoch :=
    tm_yday + 365 * tm.tm_year - 25567 + leap_years_to_end (tm.tm_year - 1)
  let seconds_since_day :=
    ((tm.tm_hour * 60) + tm.tm_min) * 60 + tm.tm_sec
  ({ tm with tm_yday := tm_yday, tm_wday := tm_wday },
   days_since_epoch * 86400 + seconds_since_day)

/-- The decoder's inline leap test from `gmtime`:
`(year % 4) == 0 && ((year % 100) != 0 || (year % 400) == 0)`,
applied to the actual year number. -/
def gmtime_leap_test (year : Int) : Bool :=
  year.tmod 4 == 0 && (year.tmod 100 != 0 || year.tmod 400 == 0)

/-- `days_in_year` of the decoder's year loop: `is_leap ? 366 : 365`. -/
def days_in_year (year : Int) : Int :=
  if gmtime_leap_test year then 366 else 365

/-- The decoder's year-search loop, fuel-indexed.  Each executed
iteration either exits (`day < days_in_year year`) or removes at least
365 from `day`, so fuel `day.toNat + 1` (used by `yearLoop`) always
suffices. -/
def yearLoopAux : Nat → Int → Int → Int × Int
  | 0, year, day => (year, day)
  | fuel + 1, year, day =>
    if day < days_in_year year then (year, day)
    else yearLoopAux fuel (year + 1) (day - days_in_year year)

/-- The decoder's year-search loop: starts at the given year and
advances while the remaining day count covers a whole year. -/
def yearLoop (year day : Int) : Int × Int :=
  yearLoopAux (day.toNat + 1) year day

/-- The decoder's per-month day count: February is 29/28 by leap
status, April, June, September and November have 30 days, the rest 31. -/
def days_in_month (is_leap : Bool) (month : Int) : Int :=
  if month = 1 then (if is_leap then 29 else 28)
  else if month = 3 ∨ month = 5 ∨ month = 8 ∨ month = 10 then 30
  else 31

/-- The decoder's month-search loop, fuel-indexed.  The C loop guard
`month < 12` bounds it to 12 iterations, so fuel 12 (used by
`monthLoop`) reproduces it exactly. -/
def monthLoopAux : Nat → Bool → Int → Int → Int × Int
  | 0, _, month, day => (month, day)
  | fuel + 1, is_leap, month, day =>
    if month < 12 then
      if day < days_in_month is_leap month then (month, day)
      else monthLoopAux fuel is_leap (month + 1) (day - days_in_month is_leap month)
    else (month, day)

/-- The decoder's month-search loop, starting at month 0. -/
def monthLoop (is_leap : Bool) (day : Int) : Int × Int :=
  monthLoopAux 12 is_leap 0 day

/-- `gmtime` from `time.c`.  The C function returns a pointer to a
static `struct tm`; the embedding returns the structure by value. -/
def gmtime (t : Int) : Tm :=
  let days_since_epoch := t.tdiv 86400
  let seconds_since_day := t.tmod 86400
  let tm_sec := seconds_since_day.tmod 60
  let seconds_since_day := seconds_since_day.tdiv 60
  let tm_min := seconds_since_day.tmod 60
  let tm_hour := seconds_since_day.tdiv 60
  let tm_wday := (days_since_epoch + 4).tmod 7
  let yd := yearLoop 1970 days_since_epoch
  let year := yd.1
  let day := yd.2
  let is_leap := gmtime_leap_test year
  let md := monthLoop is_leap day
  { tm_sec := tm_sec, tm_min := tm_min, tm_hour := tm_hour,
    tm_mday := md.2 + 1, tm_mon := md.1, tm_year := year - 1900,
    tm_wday := tm_wday, tm_yday := day }

/-- Days from the epoch 1970-01-01 to the start of year `year`, written
with the encoder's own building blocks: this is exactly the
`days_since_epoch` value `mktime` computes for January 1st of `year`. -/
def epochDays (year : Int) : Int :=
  365 * (year - 1900) - 25567 + leap_years_to_end (year - 1901)

/-- Days from the start of the year to the start of month `m`, for the
leap status `is_leap`: the encoder's `days_to_month_start` table entry
plus its March-onwards leap-day correction. -/
def month_start (is_leap : Bool) (m : Int) : Int :=
  days_to_month_start.getD m.toNat 0 + (if 2 ≤ m ∧ is_leap = true then 1 else 0)

/-! ## Supporting lemmas -/

/-- The decoder's inline leap test, characterised by the Gregorian rule
on the actual year number (for non-negative years). -/
lemma gmtime_leap_test_iff (year : Int) (h : 0 ≤ year) :
    gmtime_leap_test year = true ↔
      (year % 4 = 0 ∧ (year % 100 ≠ 0 ∨ year % 400 = 0)) := by
  simp only [gmtime_leap_test, Bool.and_eq_true, Bool.or_eq_true, beq_iff_eq,
    bne_iff_ne, ne_eq,
    Int.tmod_eq_emod h (by norm_num : (0:Int) ≤ 4),
    Int.tmod_eq_emod h (by norm_num : (0:Int) ≤ 100),
    Int.tmod_eq_emod h (by norm_num : (0:Int) ≤ 400)]

/-- A year has 365 or 366 days. -/
lemma days_in_year_bounds (year : Int) :
    days_in_year year = 365 ∨ days_in_year year = 366 := by
  unfold days_in_year; split <;> simp

/-- `leap_years_to_end` in Euclidean-division form, valid on the
non-negative arguments the calendar math uses. -/
lemma leap_years_to_end_ediv (a : Int) (h : 0 ≤ a) :
    leap_years_to_end a = a / 4 - a / 100 + (a + 300) / 400 := by
  unfold leap_years_to_end
  rw [Int.tdiv_eq_ediv h (by norm_num), Int.tdiv_eq_ediv h (by norm_num),
    Int.tdiv_eq_ediv (by omega) (by norm_num)]

/-- `leap_years_to_end` is non-negative on non-negative arguments. -/
lemma leap_years_to_end_nonneg (a : Int) (h : 0 ≤ a) :
    0 ≤ leap_years_to_end a := by
  rw [leap_years_to_end_ediv a h]; omega

/-- Stepping `leap_years_to_end` from offset `year - 1901` to
`year - 1900` adds 1 exactly when `year` is a leap year by the
decoder's test. -/
lemma leap_years_to_end_split (y : Int) (h : 1970 ≤ y) :
    leap_years_to_end (y - 1900)
      = leap_years_to_end (y - 1901)
        + (if gmtime_leap_test y = true then 1 else 0) := by
  rw [leap_years_to_end_ediv (y - 1900) (by omega),
    leap_years_to_end_ediv (y - 1901) (by omega)]
  by_cases hl : gmtime_leap_test y = true
  · rw [if_pos hl]
    rw [gmtime_leap_test_iff y (by omega)] at hl
    omega
  · rw [if_neg hl]
    rw [gmtime_leap_test_iff y (by omega)] at hl
    omega

/-- Advancing the start-of-year day count by one year adds exactly that
year's number of days. -/
lemma epochDays_succ (year : Int) (h : 1970 ≤ year) :
    epochDays (year + 1) = epochDays year + days_in_year year := by
  unfold epochDays days_in_year
  rw [leap_years_to_end_ediv _ (by omega), leap_years_to_end_ediv _ (by omega)]
  by_cases hl : gmtime_leap_test year = true
  · rw [if_pos hl]
    rw [gmtime_leap_test_iff year (by omega)] at hl
    omega
  · rw [if_neg hl]
    rw [gmtime_leap_test_iff year (by omega)] at hl
    omega

/-- With fuel exceeding the remaining day count, the year loop always
stops in the break branch: the result satisfies the exit condition
`day < days_in_year year`. -/
lemma yearLoopAux_exit (fuel : Nat) : ∀ year day : Int, day.toNat < fuel →
    (yearLoopAux fuel year day).2 < days_in_year (yearLoopAux fuel year day).1 := by
  induction fuel with
  | zero => intro year day h; omega
  | succ n ih =>
    intro year day h
    simp only [yearLoopAux]
    split
    · simpa using ‹day < days_in_year year›
    · rename_i hge
      rcases days_in_year_bounds year with hy | hy <;>
        exact ih (year + 1) (day - days_in_year year) (by omega)

/-- Invariant of the year loop: it preserves the quantity
`epochDays year + day`, keeps `day` non-negative, and never moves the
year below its starting point. -/
lemma yearLoopAux_spec (fuel : Nat) : ∀ year day : Int, day.toNat < fuel →
    0 ≤ day → 1970 ≤ year →
    epochDays (yearLoopAux fuel year day).1 + (yearLoopAux fuel year day).2
        = epochDays year + day
      ∧ 0 ≤ (yearLoopAux fuel year day).2
      ∧ 1970 ≤ (yearLoopAux fuel year day).1 := by
  induction fuel with
  | zero => intro year day h; omega
  | succ n ih =>
    intro year day h hday hyear
    simp only [yearLoopAux]
    split
    · exact ⟨rfl, hday, hyear⟩
    · rename_i hge
      have hdy : days_in_year year = 365 ∨ days_in_year year = 366 :=
        days_in_year_bounds year
      obtain ⟨e, p, y⟩ := ih (year + 1) (day - days_in_year year)
        (by omega) (by omega) (by omega)
      refine ⟨?_, p, by omega⟩
      rw [e, epochDays_succ year hyear]
      ring

/-- Specification of the decoder's year search started at 1970: the
found year and residual day decompose the day count, and the residual
is a valid day index within the found year. -/
lemma yearLoop_spec (day : Int) (h : 0 ≤ day) :
    epochDays (yearLoop 1970 day).1 + (yearLoop 1970 day).2 = day
      ∧ 0 ≤ (yearLoop 1970 day).2
      ∧ (yearLoop 1970 day).2 < days_in_year (yearLoop 1970 day).1
      ∧ 1970 ≤ (yearLoop 1970 day).1 := by
  have h1 := yearLoopAux_spec (day.toNat + 1) 1970 day (by omega) h (by norm_num)
  have h2 := yearLoopAux_exit (day.toNat + 1) 1970 day (by omega)
  have e0 : epochDays 1970 = 0 := by decide
  unfold yearLoop
  exact ⟨by rw [h1.1, e0]; ring, h1.2.1, h2, h1.2.2⟩

/-- Every month length is between 1 and 31. -/
lemma days_in_month_bounds (is_leap : Bool) (m : Int) :
    1 ≤ days_in_month is_leap m ∧ days_in_month is_leap m ≤ 31 := by
  unfold days_in_month; split_ifs <;> norm_num

/-- No month starts later than day 0 in January. -/
lemma month_start_zero (is_leap : Bool) : month_start is_leap 0 = 0 := by
  cases is_leap <;> decide

/-- Advancing the start-of-month day count by one month adds exactly
that month's length, linking the encoder's `days_to_month_start` table
to the decoder's explicit month lengths. -/
lemma month_start_succ (is_leap : Bool) (m : Int) (h0 : 0 ≤ m) (h1 : m < 11) :
    month_start is_leap (m + 1) = month_start is_leap m + days_in_month is_leap m := by
  interval_cases m <;> cases is_leap <;> decide

/-- Invariant of the month loop: started inside the months of a year
with a day count that fits the leap status, it stops at a month index
in [0,11] with a residual that is a valid day index of that month, and
it preserves the quantity `month_start is_leap month + day`. -/
lemma monthLoopAux_spec (fuel : Nat) : ∀ (is_leap : Bool) (month day : Int),
    month.toNat + fuel = 12 → 0 ≤ month → month ≤ 11 → 0 ≤ day →
    month_start is_leap month + day < (if is_leap then 366 else 365) →
    0 ≤ (monthLoopAux fuel is_leap month day).1
      ∧ (monthLoopAux fuel is_leap month day).1 ≤ 11
      ∧ 0 ≤ (monthLoopAux fuel is_leap month day).2
      ∧ (monthLoopAux fuel is_leap month day).2
          < days_in_month is_leap (monthLoopAux fuel is_leap month day).1
      ∧ month_start is_leap (monthLoopAux fuel is_leap month day).1
            + (monthLoopAux fuel is_leap month day).2
          = month_start is_leap month + day := by
  induction fuel with
  | zero => intro is_leap month day hf h0 h11; omega
  | succ n ih =>
    intro is_leap month day hf h0 h11 hday hbound
    simp only [monthLoopAux]
    rw [if_pos (by omega : month < 12)]
    split
    · exact ⟨h0, h11, hday, ‹day < days_in_month is_leap month›, rfl⟩
    · rename_i hge
      have hne11 : month ≠ 11 := by
        intro he
        subst he
        have hm : month_start is_leap 11 = if is_leap then 335 else 334 := by
          cases is_leap <;> decide
        have hd : days_in_month is_leap 11 = 31 := by
          cases is_leap <;> decide
        rw [hd] at hge
        cases is_leap <;> simp_all <;> omega
      have hstep := month_start_succ is_leap month h0 (by omega)
      have hdb := days_in_month_bounds is_leap month
      obtain ⟨a, b, c, d, e⟩ := ih is_leap (month + 1) (day - days_in_month is_leap month)
        (by omega) (by omega) (by omega) (by omega) (by rw [hstep]; omega)
      refine ⟨a, b, c, d, ?_⟩
      rw [e, hstep]
      ring

/-- The encoder's `is_leap_year` is non-zero exactly when the offset is
100 modulo 400 (truncated C remainder), or divisible by 4 and not by
100: the outcome of the C `if` chain. -/
lemma is_leap_year_ne_zero_iff (y : Int) :
    is_leap_year y ≠ 0 ↔
      (y.tmod 400 = 100 ∨ (y.tmod 4 = 0 ∧ y.tmod 100 ≠ 0)) := by
  simp only [is_leap_year]
  split_ifs <;> simp_all

/-- For years at or after 1970, the encoder's `is_leap_year` applied to
the offset `year - 1900` agrees with the decoder's inline leap test
applied to the year itself. -/
lemma is_leap_year_agrees (year : Int) (h : 1970 ≤ year) :
    (is_leap_year (year - 1900) ≠ 0) ↔ gmtime_leap_test year = true := by
  rw [is_leap_year_ne_zero_iff, gmtime_leap_test_iff year (by omega)]
  rw [Int.tmod_eq_emod (by omega : (0:Int) ≤ year - 1900) (by norm_num : (0:Int) ≤ 4),
    Int.tmod_eq_emod (by omega : (0:Int) ≤ year - 1900) (by norm_num : (0:Int) ≤ 100),
    Int.tmod_eq_emod (by omega : (0:Int) ≤ year - 1900) (by norm_num : (0:Int) ≤ 400)]
  omega

/-- Master decomposition of the decoder's two loops on a non-negative
input: the year/month search results, their ranges, and the two
conservation equations. -/
lemma gmtime_loops (t : Int) (ht : 0 ≤ t) :
    1970 ≤ (yearLoop 1970 (t.tdiv 86400)).1
    ∧ 0 ≤ (yearLoop 1970 (t.tdiv 86400)).2
    ∧ (yearLoop 1970 (t.tdiv 86400)).2 < days_in_year (yearLoop 1970 (t.tdiv 86400)).1
    ∧ 0 ≤ (monthLoop (gmtime_leap_test (yearLoop 1970 (t.tdiv 86400)).1)
            (yearLoop 1970 (t.tdiv 86400)).2).1
    ∧ (monthLoop (gmtime_leap_test (yearLoop 1970 (t.tdiv 86400)).1)
            (yearLoop 1970 (t.tdiv 86400)).2).1 ≤ 11
    ∧ 0 ≤ (monthLoop (gmtime_leap_test (yearLoop 1970 (t.tdiv 86400)).1)
            (yearLoop 1970 (t.tdiv 86400)).2).2
    ∧ (monthLoop (gmtime_leap_test (yearLoop 1970 (t.tdiv 86400)).1)
            (yearLoop 1970 (t.tdiv 86400)).2).2
        < days_in_month (gmtime_leap_test (yearLoop 1970 (t.tdiv 86400)).1)
            (monthLoop (gmtime_leap_test (yearLoop 1970 (t.tdiv 86400)).1)
              (yearLoop 1970 (t.tdiv 86400)).2).1
    ∧ month_start (gmtime_leap_test (yearLoop 1970 (t.tdiv 86400)).1)
          (monthLoop (gmtime_leap_test (yearLoop 1970 (t.tdiv 86400)).1)
            (yearLoop 1970 (t.tdiv 86400)).2).1
        + (monthLoop (gmtime_leap_test (yearLoop 1970 (t.tdiv 86400)).1)
            (yearLoop 1970 (t.tdiv 86400)).2).2
        = (yearLoop 1970 (t.tdiv 86400)).2
    ∧ epochDays (yearLoop 1970 (t.tdiv 86400)).1 + (yearLoop 1970 (t.tdiv 86400)).2
        = t.tdiv 86400 := by
  have hd0 : 0 ≤ t.tdiv 86400 := by
    rw [Int.tdiv_eq_ediv ht (by norm_num)]
    exact Int.ediv_nonneg ht (by norm_num)
  obtain ⟨hE, hday0, hexit, hyr⟩ := yearLoop_spec (t.tdiv 86400) hd0
  have hpre : month_start (gmtime_leap_test (yearLoop 1970 (t.tdiv 86400)).1) 0
        + (yearLoop 1970 (t.tdiv 86400)).2
      < (if gmtime_leap_test (yearLoop 1970 (t.tdiv 86400)).1 then 366 else 365) := by
    rw [month_start_zero, zero_add]
    unfold days_in_year at hexit
    exact hexit
  obtain ⟨a, b, c, d, e⟩ := monthLoopAux_spec 12
    (gmtime_leap_test (yearLoop 1970 (t.tdiv 86400)).1) 0
    (yearLoop 1970 (t.tdiv 86400)).2
    (by norm_num) (by norm_num) (by norm_num) hday0 hpre
  rw [month_start_zero, zero_add] at e
  exact ⟨hyr, hday0, hexit, a, b, c, d, e, hE⟩

/-- The `offset[12]` table of `day_of_week`, as a case chain over the
month index. -/
lemma wd_offset_getD (m : Int) (h0 : 0 ≤ m) (h1 : m ≤ 11) :
    wd_offset.getD m.toNat 0 =
      if m = 0 then 1 else if m = 1 then 4 else if m = 2 then 3
      else if m = 3 then 6 else if m = 4 then 1 else if m = 5 then 4
      else if m = 6 then 6 else if m = 7 then 2 else if m = 8 then 5
      else if m = 9 then 0 else if m = 10 then 3 else 5 := by
  interval_cases m <;> decide

/-- The `days_to_month_start` table, as a case chain over the month
index. -/
lemma days_to_month_start_getD (m : Int) (h0 : 0 ≤ m) (h1 : m ≤ 11) :
    days_to_month_start.getD m.toNat 0 =
      if m = 0 then 0 else if m = 1 then 31 else if m = 2 then 59
      else if m = 3 then 90 else if m = 4 then 120 else if m = 5 then 151
      else if m = 6 then 181 else if m = 7 then 212 else if m = 8 then 243
      else if m = 9 then 273 else if m = 10 then 304 else 334 := by
  interval_cases m <;> decide

/-- Combined table lookup for a month index in [0,11]: the index, its
`days_to_month_start` entry and its `day_of_week` offset entry, as a
twelve-way disjunction suited to arithmetic reasoning. -/
lemma month_tables (m : Int) (h0 : 0 ≤ m) (h1 : m ≤ 11) :
    (m = 0 ∧ days_to_month_start.getD m.toNat 0 = 0 ∧ wd_offset.getD m.toNat 0 = 1)
    ∨ (m = 1 ∧ days_to_month_start.getD m.toNat 0 = 31 ∧ wd_offset.getD m.toNat 0 = 4)
    ∨ (m = 2 ∧ days_to_month_start.getD m.toNat 0 = 59 ∧ wd_offset.getD m.toNat 0 = 3)
    ∨ (m = 3 ∧ days_to_month_start.getD m.toNat 0 = 90 ∧ wd_offset.getD m.toNat 0 = 6)
    ∨ (m = 4 ∧ days_to_month_start.getD m.toNat 0 = 120 ∧ wd_offset.getD m.toNat 0 = 1)
    ∨ (m = 5 ∧ days_to_month_start.getD m.toNat 0 = 151 ∧ wd_offset.getD m.toNat 0 = 4)
    ∨ (m = 6 ∧ days_to_month_start.getD m.toNat 0 = 181 ∧ wd_offset.getD m.toNat 0 = 6)
    ∨ (m = 7 ∧ days_to_month_start.getD m.toNat 0 = 212 ∧ wd_offset.getD m.toNat 0 = 2)
    ∨ (m = 8 ∧ days_to_month_start.getD m.toNat 0 = 243 ∧ wd_offset.getD m.toNat 0 = 5)
    ∨ (m = 9 ∧ days_to_month_start.getD m.toNat 0 = 273 ∧ wd_offset.getD m.toNat 0 = 0)
    ∨ (m = 10 ∧ days_to_month_start.getD m.toNat 0 = 304 ∧ wd_offset.getD m.toNat 0 = 3)
    ∨ (m = 11 ∧ days_to_month_start.getD m.toNat 0 = 334 ∧ wd_offset.getD m.toNat 0 = 5) := by
  interval_cases m <;> decide

/-! ## Claim theorems -/

/-- **C3, counterexample.** The claimed rule fails on the code at
`year_offset = 400` (calendar year 2300): 400 is divisible by 4 and by
400, so the claimed predicate holds, yet `is_leap_year 400 = 0`. -/
theorem C3_leap_rule_counterexample :
    ¬ (is_leap_year 400 ≠ 0 ↔
        (((400:Int) % 4 = 0 ∧ (400:Int) % 100 ≠ 0) ∨ (400:Int) % 400 = 0)) := by
  decide

/-- **C3, amended.** For every non-negative `year_offset`,
`is_leap_year year_offset` is non-zero iff `year_offset ≡ 0 (mod 4)`
and `year_offset ≢ 0 (mod 100)`, or `year_offset ≡ 100 (mod 400)` —
equivalently, iff the calendar year `1900 + year_offset` is divisible
by 4 and not by 100, or divisible by 400. -/
theorem C3_leap_rule_amended (y : Int) (h : 0 ≤ y) :
    is_leap_year y ≠ 0 ↔ ((y % 4 = 0 ∧ y % 100 ≠ 0) ∨ y % 400 = 100) := by
  rw [is_leap_year_ne_zero_iff,
    Int.tmod_eq_emod h (by norm_num : (0:Int) ≤ 4),
    Int.tmod_eq_emod h (by norm_num : (0:Int) ≤ 100),
    Int.tmod_eq_emod h (by norm_num : (0:Int) ≤ 400)]
  tauto

/-- Witness for the amended C3, at `year_offset = 100` (year 2000). -/
theorem C3_leap_rule_amended_witness :
    (0:Int) ≤ 100 ∧
      (is_leap_year 100 ≠ 0 ↔
        (((100:Int) % 4 = 0 ∧ (100:Int) % 100 ≠ 0) ∨ (100:Int) % 400 = 100)) :=
  ⟨by decide, C3_leap_rule_amended 100 (by decide)⟩

/-- **C4.** For every broken-down time with fields in the data-model
ranges, `mktime` returns exactly
`(day_of_year + 365*tm_year - 25567 + leap_years_to_end (tm_year - 1)) * 86400
  + ((tm_hour*60 + tm_min)*60 + tm_sec)`,
where `day_of_year` is `(tm_mday - 1)` plus the non-leap
days-before-month table entry for `tm_mon`, plus one extra day when
`tm_mon ≥ 2` and the year is a leap year. -/
theorem C4_mktime_formula (tm : Tm)
    (hsec : 0 ≤ tm.tm_sec ∧ tm.tm_sec ≤ 59)
    (hmin : 0 ≤ tm.tm_min ∧ tm.tm_min ≤ 59)
    (hhour : 0 ≤ tm.tm_hour ∧ tm.tm_hour ≤ 23)
    (hmday : 1 ≤ tm.tm_mday ∧ tm.tm_mday ≤ 31)
    (hmon : 0 ≤ tm.tm_mon ∧ tm.tm_mon ≤ 11) :
    (mktime tm).2 =
      (((tm.tm_mday - 1) + days_to_month_start.getD tm.tm_mon.toNat 0
          + (if 2 ≤ tm.tm_mon ∧ is_leap_year tm.tm_year ≠ 0 then 1 else 0))
        + 365 * tm.tm_year - 25567 + leap_years_to_end (tm.tm_year - 1)) * 86400
      + ((tm.tm_hour * 60 + tm.tm_min) * 60 + tm.tm_sec) := by
  simp only [mktime]
  split_ifs <;> ring

/-- Witness for C4: 2024-02-29 12:30:45. -/
theorem C4_mktime_formula_witness :
    ((0:Int) ≤ 45 ∧ (45:Int) ≤ 59) ∧ ((0:Int) ≤ 30 ∧ (30:Int) ≤ 59)
    ∧ ((0:Int) ≤ 12 ∧ (12:Int) ≤ 23) ∧ ((1:Int) ≤ 29 ∧ (29:Int) ≤ 31)
    ∧ ((0:Int) ≤ 1 ∧ (1:Int) ≤ 11)
    ∧ (mktime ⟨45, 30, 12, 29, 1, 124, 0, 0⟩).2 =
        ((((29:Int) - 1) + days_to_month_start.getD (Int.toNat 1) 0
            + (if 2 ≤ (1:Int) ∧ is_leap_year 124 ≠ 0 then 1 else 0))
          + 365 * 124 - 25567 + leap_years_to_end (124 - 1)) * 86400
        + (((12:Int) * 60 + 30) * 60 + 45) :=
  ⟨by decide, by decide, by decide, by decide, by decide,
    C4_mktime_formula ⟨45, 30, 12, 29, 1, 124, 0, 0⟩
      (by decide) (by decide) (by decide) (by decide) (by decide)⟩

/-- **C5.** Decoder termination: every year's day count is positive
(at least 365), and for every remaining day count the year search
stops in the break branch, i.e. its result satisfies the loop's exit
condition — the residual day count is strictly below the day count of
the found year.  Each non-exiting iteration removes the positive
`days_in_year` from the remaining days, which is why the fuel
`day.toNat + 1` used by `yearLoop` can never run out first. -/
theorem C5_year_search_terminates (year day : Int) :
    365 ≤ days_in_year year
      ∧ (yearLoop year day).2 < days_in_year (yearLoop year day).1 := by
  constructor
  · rcases days_in_year_bounds year with h | h <;> omega
  · exact yearLoopAux_exit (day.toNat + 1) year day (by omega)

/-- **C6.** Decoding `t = 0` yields 1970-01-01 00:00:00, a Thursday
(`tm_wday = 4`), with `tm_yday = 0`. -/
theorem C6_epoch_fixed_point :
    (gmtime 0).tm_year = 70 ∧ (gmtime 0).tm_mon = 0 ∧ (gmtime 0).tm_mday = 1
      ∧ (gmtime 0).tm_hour = 0 ∧ (gmtime 0).tm_min = 0 ∧ (gmtime 0).tm_sec = 0
      ∧ (gmtime 0).tm_wday = 4 ∧ (gmtime 0).tm_yday = 0 := by
  decide

/-- **C7.** Decoding 951782400 (2000-02-29T00:00:00Z) yields
day-of-year 59, month 1 (February, zero-based) and day-of-month 29;
decoding 951868800 (2000-03-01T00:00:00Z) yields day-of-year 60. -/
theorem C7_leap_boundary_2000 :
    (gmtime 951782400).tm_yday = 59 ∧ (gmtime 951782400).tm_mon = 1
      ∧ (gmtime 951782400).tm_mday = 29
      ∧ (gmtime 951868800).tm_yday = 60 := by
  decide

/-- **C8.** 1900 and 2100 are non-leap, 2000 and 2400 are leap, both
for the encoder's predicate at offsets 0, 200, 100, 500 and for the
decoder's inline test at the actual year numbers. -/
theorem C8_century_years :
    is_leap_year 0 = 0 ∧ is_leap_year 200 = 0
      ∧ is_leap_year 100 = 1 ∧ is_leap_year 500 = 1
      ∧ gmtime_leap_test 1900 = false ∧ gmtime_leap_test 2100 = false
      ∧ gmtime_leap_test 2000 = true ∧ gmtime_leap_test 2400 = true := by
  decide

/-- **C10.** Frame effect of the encoder: `mktime` rewrites only the
derived fields `tm_wday` and `tm_yday`; the six primary fields of its
argument are unchanged. -/
theorem C10_mktime_frame (tm : Tm) :
    ((mktime tm).1).tm_sec = tm.tm_sec ∧ ((mktime tm).1).tm_min = tm.tm_min
      ∧ ((mktime tm).1).tm_hour = tm.tm_hour
      ∧ ((mktime tm).1).tm_mday = tm.tm_mday
      ∧ ((mktime tm).1).tm_mon = tm.tm_mon
      ∧ ((mktime tm).1).tm_year = tm.tm_year :=
  ⟨rfl, rfl, rfl, rfl, rfl, rfl⟩

/-- **C9.** Decoder output invariant: for every non-negative input the
decoded broken-down time has month in [0,11], day-of-month in [1,31],
hour in [0,23], minute and second in [0,59], day-of-week in [0,6] and
day-of-year in [0,365]. -/
theorem C9_gmtime_field_ranges (t : Int) (ht : 0 ≤ t) :
    (0 ≤ (gmtime t).tm_mon ∧ (gmtime t).tm_mon ≤ 11)
    ∧ (1 ≤ (gmtime t).tm_mday ∧ (gmtime t).tm_mday ≤ 31)
    ∧ (0 ≤ (gmtime t).tm_hour ∧ (gmtime t).tm_hour ≤ 23)
    ∧ (0 ≤ (gmtime t).tm_min ∧ (gmtime t).tm_min ≤ 59)
    ∧ (0 ≤ (gmtime t).tm_sec ∧ (gmtime t).tm_sec ≤ 59)
    ∧ (0 ≤ (gmtime t).tm_wday ∧ (gmtime t).tm_wday ≤ 6)
    ∧ (0 ≤ (gmtime t).tm_yday ∧ (gmtime t).tm_yday ≤ 365) := by
  obtain ⟨hyr, hday0, hexit, hm0, hm11, hd20, hd2lt, hsum, hE⟩ := gmtime_loops t ht
  have hdm := days_in_month_bounds (gmtime_leap_test (yearLoop 1970 (t.tdiv 86400)).1)
    (monthLoop (gmtime_leap_test (yearLoop 1970 (t.tdiv 86400)).1)
      (yearLoop 1970 (t.tdiv 86400)).2).1
  have hdy := days_in_year_bounds (yearLoop 1970 (t.tdiv 86400)).1
  have h86 : t.tmod 86400 = t % 86400 := Int.tmod_eq_emod ht (by norm_num)
  have hq : 0 ≤ t % 86400 := Int.emod_nonneg t (by norm_num)
  have hqlt : t % 86400 < 86400 := Int.emod_lt_of_pos t (by norm_num)
  have h60 : (t % 86400).tdiv 60 = (t % 86400) / 60 :=
    Int.tdiv_eq_ediv hq (by norm_num)
  have h60n : 0 ≤ (t % 86400) / 60 := Int.ediv_nonneg hq (by norm_num)
  have ha : ((t % 86400) / 60).tdiv 60 = (t % 86400) / 60 / 60 :=
    Int.tdiv_eq_ediv h60n (by norm_num)
  have hb : ((t % 86400) / 60).tmod 60 = (t % 86400) / 60 % 60 :=
    Int.tmod_eq_emod h60n (by norm_num)
  have hc2 : (t % 86400).tmod 60 = (t % 86400) % 60 :=
    Int.tmod_eq_emod hq (by norm_num)
  have hdiv : t.tdiv 86400 = t / 86400 := Int.tdiv_eq_ediv ht (by norm_num)
  have hdn : 0 ≤ t / 86400 := Int.ediv_nonneg ht (by norm_num)
  have hw : (t / 86400 + 4).tmod 7 = (t / 86400 + 4) % 7 :=
    Int.tmod_eq_emod (by omega) (by norm_num)
  rw [hdiv] at hyr hday0 hexit hm0 hm11 hd20 hd2lt hsum hE hdm hdy
  simp only [gmtime, h86, h60, ha, hb, hc2, hdiv, hw]
  refine ⟨⟨hm0, hm11⟩, ?_, ?_, ?_, ?_, ?_, ?_⟩ <;> constructor <;> omega

/-- Witness for C9 at `t = 86399` (1970-01-01 23:59:59). -/
theorem C9_gmtime_field_ranges_witness :
    (0:Int) ≤ 86399
    ∧ ((0 ≤ (gmtime 86399).tm_mon ∧ (gmtime 86399).tm_mon ≤ 11)
      ∧ (1 ≤ (gmtime 86399).tm_mday ∧ (gmtime 86399).tm_mday ≤ 31)
      ∧ (0 ≤ (gmtime 86399).tm_hour ∧ (gmtime 86399).tm_hour ≤ 23)
      ∧ (0 ≤ (gmtime 86399).tm_min ∧ (gmtime 86399).tm_min ≤ 59)
      ∧ (0 ≤ (gmtime 86399).tm_sec ∧ (gmtime 86399).tm_sec ≤ 59)
      ∧ (0 ≤ (gmtime 86399).tm_wday ∧ (gmtime 86399).tm_wday ≤ 6)
      ∧ (0 ≤ (gmtime 86399).tm_yday ∧ (gmtime 86399).tm_yday ≤ 365)) :=
  ⟨by decide, C9_gmtime_field_ranges 86399 (by decide)⟩

/-- **C1.** Round-trip: for every non-negative epoch-seconds value
`t`, re-encoding the decoded broken-down time gives `t` back:
`mktime (gmtime t) = t`. -/
theorem C1_mktime_gmtime_roundtrip (t : Int) (ht : 0 ≤ t) :
    (mktime (gmtime t)).2 = t := by
  obtain ⟨hyr, hday0, hexit, hm0, hm11, hd20, hd2lt, hsum, hE⟩ := gmtime_loops t ht
  have h86 : t.tmod 86400 = t % 86400 := Int.tmod_eq_emod ht (by norm_num)
  have hq : 0 ≤ t % 86400 := Int.emod_nonneg t (by norm_num)
  have h60 : (t % 86400).tdiv 60 = (t % 86400) / 60 :=
    Int.tdiv_eq_ediv hq (by norm_num)
  have h60n : 0 ≤ (t % 86400) / 60 := Int.ediv_nonneg hq (by norm_num)
  have ha : ((t % 86400) / 60).tdiv 60 = (t % 86400) / 60 / 60 :=
    Int.tdiv_eq_ediv h60n (by norm_num)
  have hb : ((t % 86400) / 60).tmod 60 = (t % 86400) / 60 % 60 :=
    Int.tmod_eq_emod h60n (by norm_num)
  have hc2 : (t % 86400).tmod 60 = (t % 86400) % 60 :=
    Int.tmod_eq_emod hq (by norm_num)
  have hdiv : t.tdiv 86400 = t / 86400 := Int.tdiv_eq_ediv ht (by norm_num)
  rw [hdiv] at hyr hday0 hexit hm0 hm11 hd20 hd2lt hsum hE
  simp only [gmtime, mktime, h86, h60, ha, hb, hc2, hdiv]
  simp only [month_start] at hsum
  simp only [epochDays] at hE
  have hagree :
      (2 ≤ (monthLoop (gmtime_leap_test (yearLoop 1970 (t / 86400)).1)
              (yearLoop 1970 (t / 86400)).2).1
          ∧ is_leap_year ((yearLoop 1970 (t / 86400)).1 - 1900) ≠ 0)
        ↔ (2 ≤ (monthLoop (gmtime_leap_test (yearLoop 1970 (t / 86400)).1)
              (yearLoop 1970 (t / 86400)).2).1
          ∧ gmtime_leap_test (yearLoop 1970 (t / 86400)).1 = true) :=
    and_congr_right fun _ =>
      is_leap_year_agrees (yearLoop 1970 (t / 86400)).1 hyr
  simp only [hagree]
  have harg : (yearLoop 1970 (t / 86400)).1 - 1900 - 1
      = (yearLoop 1970 (t / 86400)).1 - 1901 := by ring
  rw [harg]
  have hsec : ((t % 86400) / 60 / 60 * 60 + (t % 86400) / 60 % 60) * 60
      + (t % 86400) % 60 = t % 86400 := by omega
  have hsplit : t / 86400 * 86400 + t % 86400 = t := by omega
  split_ifs at hsum ⊢ with hcond
  · linarith [hsec, hsplit, hsum, hE]
  · linarith [hsec, hsplit, hsum, hE]

/-- Witness for C1 at the present-day value `t = 1760140800`
(2025-10-11T00:00:00Z). -/
theorem C1_mktime_gmtime_roundtrip_witness :
    (0:Int) ≤ 1760140800 ∧ (mktime (gmtime 1760140800)).2 = 1760140800 :=
  ⟨by decide, C1_mktime_gmtime_roundtrip 1760140800 (by decide)⟩

set_option maxHeartbeats 1000000 in
/-- **C2.** Weekday consistency: for the calendar date lying `d` whole
days after the epoch (obtained by decoding `86400 * d`), the decoder's
direct formula `(d + 4) mod 7` coincides with the encoder's Gregorian
congruence `day_of_week` applied to that date's year, month and
day-of-month. -/
theorem C2_weekday_consistency (d : Int) (hd : 0 ≤ d) :
    (gmtime (86400 * d)).tm_wday = (d + 4) % 7
    ∧ (gmtime (86400 * d)).tm_wday
        = day_of_week (gmtime (86400 * d)).tm_year (gmtime (86400 * d)).tm_mon
            (gmtime (86400 * d)).tm_mday := by
  have ht : 0 ≤ 86400 * d := by omega
  have hdd : (86400 * d).tdiv 86400 = d := by
    rw [Int.tdiv_eq_ediv ht (by norm_num)]
    exact Int.mul_ediv_cancel_left d (by norm_num)
  obtain ⟨hyr, hday0, hexit, hm0, hm11, hd20, hd2lt, hsum, hE⟩ :=
    gmtime_loops (86400 * d) ht
  rw [hdd] at hyr hday0 hexit hm0 hm11 hd20 hd2lt hsum hE
  obtain ⟨y, day, hYD⟩ : ∃ y day, yearLoop 1970 d = (y, day) := ⟨_, _, rfl⟩
  simp only [hYD] at hyr hday0 hexit hm0 hm11 hd20 hd2lt hsum hE
  obtain ⟨m, d2, hMD⟩ : ∃ m d2, monthLoop (gmtime_leap_test y) day = (m, d2) :=
    ⟨_, _, rfl⟩
  simp only [hMD] at hm0 hm11 hd20 hd2lt hsum
  have hw : (d + 4).tmod 7 = (d + 4) % 7 := Int.tmod_eq_emod (by omega) (by norm_num)
  constructor
  · simp only [gmtime, hdd]
    exact hw
  · simp only [gmtime, hdd, hYD, hMD]
    simp only [day_of_week]
    simp only [month_start] at hsum
    simp only [epochDays] at hE
    rw [leap_years_to_end_ediv (y - 1901) (by omega)] at hE
    have hoff : 0 ≤ wd_offset.getD m.toNat 0 ∧ wd_offset.getD m.toNat 0 ≤ 6 := by
      rcases month_tables m hm0 hm11 with h|h|h|h|h|h|h|h|h|h|h|h <;> omega
    clear hYD hMD hexit hd2lt ht hdd
    by_cases hm2 : m < 2
    · simp only [if_pos hm2]
      have hp2 := leap_years_to_end_nonneg (y - 1900 - 1) (by omega)
      have hbig : 0 ≤ y - 1900 - 1 + leap_years_to_end (y - 1900 - 1)
          + wd_offset.getD m.toNat 0 + (d2 + 1) := by omega
      rw [Int.tmod_eq_emod hbig (by norm_num), hw]
      have hps : y - 1900 - 1 = y - 1901 := by ring
      rw [hps, leap_years_to_end_ediv (y - 1901) (by omega)]
      have hC : (if 2 ≤ m ∧ gmtime_leap_test y = true then (1:Int) else 0) = 0 :=
        if_neg fun hcon => absurd hcon.1 (by omega)
      rw [hC] at hsum
      rcases month_tables m hm0 hm11 with h|h|h|h|h|h|h|h|h|h|h|h <;> omega
    · simp only [if_neg hm2]
      have hp2 := leap_years_to_end_nonneg (y - 1900) (by omega)
      have hbig : 0 ≤ y - 1900 + leap_years_to_end (y - 1900)
          + wd_offset.getD m.toNat 0 + (d2 + 1) := by omega
      rw [Int.tmod_eq_emod hbig (by norm_num), hw]
      rw [leap_years_to_end_split y hyr,
        leap_years_to_end_ediv (y - 1901) (by omega)]
      by_cases hLb : gmtime_leap_test y = true
      · have hC : (if 2 ≤ m ∧ gmtime_leap_test y = true then (1:Int) else 0) = 1 :=
          if_pos ⟨by omega, hLb⟩
        have hC2 : (if gmtime_leap_test y = true then (1:Int) else 0) = 1 :=
          if_pos hLb
        rw [hC] at hsum
        rw [hC2]
        rcases month_tables m hm0 hm11 with h|h|h|h|h|h|h|h|h|h|h|h <;> omega
      · have hC : (if 2 ≤ m ∧ gmtime_leap_test y = true then (1:Int) else 0) = 0 :=
          if_neg fun hcon => hLb hcon.2
        have hC2 : (if gmtime_leap_test y = true then (1:Int) else 0) = 0 :=
          if_neg hLb
        rw [hC] at hsum
        rw [hC2]
        rcases month_tables m hm0 hm11 with h|h|h|h|h|h|h|h|h|h|h|h <;> omega

/-- Witness for C2 at `d = 20372` (2025-10-11, a Saturday). -/
theorem C2_weekday_consistency_witness :
    (0:Int) ≤ 20372
    ∧ ((gmtime (86400 * 20372)).tm_wday = ((20372:Int) + 4) % 7
      ∧ (gmtime (86400 * 20372)).tm_wday
          = day_of_week (gmtime (86400 * 20372)).tm_year
              (gmtime (86400 * 20372)).tm_mon (gmtime (86400 * 20372)).tm_mday) :=
  ⟨by decide, C2_weekday_consistency 20372 (by decide)⟩

end IPXETime
